import Mathlib

/-!
Shallow embedding of the userver asynchronous child-process execution
subsystem (engine::subprocess): ProcessStarter::Exec, DoExecve, the
pid-keyed child-process registry, and ChildProcessStatus.

Pure data and control flow are translated from the C++ source.  Parts of
the repository whose definitions are not in the provided sources (the
registry map, EnvironmentVariables::UpdateWith, CheckSyscall, the
ChildProcessStatus accessors, the thread-control primitive) are modelled
from the specification; each such definition says so in its doc comment.
-/

namespace Userver
namespace Subprocess

/-- Process identifier. -/
abbrev Pid := Nat

/-- SIGKILL signal number, as in csignal. -/
def SIGKILL : Nat := 9

/-! ### Environment variables

The C++ EnvironmentVariables type (environment_variables.hpp, not among
the provided sources) is a mapping from variable name to value.  It is
embedded as an association list whose keys are unique; lookup takes the
first match. -/

/-- Environment mapping, name to value, embedded as an association list. -/
abbrev EnvironmentVariables := List (String × String)

/-- Lookup of a variable; first match wins. -/
def getVar : EnvironmentVariables → String → Option String
  | [], _ => none
  | p :: rest, k => if p.1 = k then some p.2 else getVar rest k

/-- Set a variable: replace the first binding of the key, or append a new
binding when the key is absent (unordered_map insert-or-assign semantics). -/
def setVar : EnvironmentVariables → String → String → EnvironmentVariables
  | [], k, v => [(k, v)]
  | p :: rest, k, v => if p.1 = k then (k, v) :: rest else p :: setVar rest k v

/-- Modelled from the spec: EnvironmentVariables::UpdateWith (definition not
among the provided sources) overlays the update onto the base environment:
existing keys replaced, new keys added, other keys left untouched. -/
def updateWith (env upd : EnvironmentVariables) : EnvironmentVariables :=
  upd.foldl (fun e p => setVar e p.1 p.2) env

theorem getVar_setVar_same (env : EnvironmentVariables) (k v : String) :
    getVar (setVar env k v) k = some v := by
  induction env with
  | nil => simp [setVar, getVar]
  | cons p rest ih =>
    by_cases h : p.1 = k
    · simp [setVar, h, getVar]
    · simp [setVar, h, getVar, ih]

theorem getVar_setVar_other (env : EnvironmentVariables) (k v : String)
    (j : String) (hj : k ≠ j) : getVar (setVar env k v) j = getVar env j := by
  induction env with
  | nil => simp [setVar, getVar, hj]
  | cons p rest ih =>
    by_cases h : p.1 = k
    · simp [setVar, h, getVar, hj, h ▸ hj]
    · simp [setVar, h, getVar, ih]

theorem getVar_eq_none_of_not_mem (env : EnvironmentVariables) (k : String)
    (h : k ∉ env.map Prod.fst) : getVar env k = none := by
  induction env with
  | nil => rfl
  | cons p rest ih =>
    simp only [List.map_cons, List.mem_cons] at h
    push_neg at h
    have hne : ¬p.1 = k := fun he => h.1 he.symm
    simp [getVar, hne, ih h.2]

/-- Overlay semantics of updateWith, for update maps with unique keys:
a key bound in the update map observes the updated value, a key absent
from the update map observes the base value. -/
theorem getVar_updateWith (base upd : EnvironmentVariables) (k : String)
    (hnd : (upd.map Prod.fst).Nodup) :
    (∀ v, getVar upd k = some v → getVar (updateWith base upd) k = some v) ∧
    (getVar upd k = none → getVar (updateWith base upd) k = getVar base k) := by
  induction upd generalizing base with
  | nil => exact ⟨fun v hv => by simp [getVar] at hv, fun _ => rfl⟩
  | cons p rest ih =>
    simp only [List.map_cons, List.nodup_cons] at hnd
    have hrest := ih (setVar base p.1 p.2) hnd.2
    constructor
    · intro v hv
      by_cases hpk : p.1 = k
      · have hv2 : p.2 = v := by simpa [getVar, hpk] using hv
        have hnone : getVar rest k = none :=
          getVar_eq_none_of_not_mem rest k (hpk ▸ hnd.1)
        have := hrest.2 hnone
        calc getVar (updateWith base (p :: rest)) k
            = getVar (setVar base p.1 p.2) k := this
          _ = some v := by rw [hpk, getVar_setVar_same, hv2]
      · have hv2 : getVar rest k = some v := by simpa [getVar, hpk] using hv
        exact hrest.1 v hv2
    · intro hn
      have hpk : ¬p.1 = k := by
        intro he
        simp [getVar, he] at hn
      have hn2 : getVar rest k = none := by simpa [getVar, hpk] using hn
      calc getVar (updateWith base (p :: rest)) k
          = getVar (setVar base p.1 p.2) k := hrest.2 hn2
        _ = getVar base k := getVar_setVar_other base p.1 p.2 k hpk

/-! ### ChildProcessStatus

Embeds child_process_status.hpp.  The reason classification and the
IsExited / IsSignaled predicates are translated from the header; the
GetExitCode / GetTermSignal accessors (whose definitions are not among the
provided sources) are modelled from the spec as faulting accessors. -/

/-- Exit reason of a finished subprocess (ChildProcessStatus::ExitReason). -/
inductive ExitReason
  | kExited
  | kSignaled
deriving DecidableEq, Repr

/-- Immutable terminal state of a finished subprocess. -/
structure ChildProcessStatus where
  execution_time_ : Int
  exit_reason_ : ExitReason
  exit_code_ : Int
  term_signal_ : Int
deriving DecidableEq, Repr

/-- Usage fault raised by an accessor called in the wrong state
(ChildProcessStatusException). -/
structure ChildProcessStatusException where
  message : String
deriving DecidableEq, Repr

def ChildProcessStatus.GetExitReason (s : ChildProcessStatus) : ExitReason :=
  s.exit_reason_

def ChildProcessStatus.IsExited (s : ChildProcessStatus) : Bool :=
  decide (s.exit_reason_ = ExitReason.kExited)

def ChildProcessStatus.IsSignaled (s : ChildProcessStatus) : Bool :=
  decide (s.exit_reason_ = ExitReason.kSignaled)

def ChildProcessStatus.GetExecutionTime (s : ChildProcessStatus) : Int :=
  s.execution_time_

/-- Modelled from the spec: GetExitCode (definition not among the provided
sources) may be called only when IsExited; otherwise it raises a usage
fault at the call site instead of returning a default value. -/
def ChildProcessStatus.GetExitCode (s : ChildProcessStatus) :
    Except ChildProcessStatusException Int :=
  if s.IsExited then Except.ok s.exit_code_
  else Except.error ⟨"GetExitCode called on non-exited process status"⟩

/-- Modelled from the spec: GetTermSignal (definition not among the provided
sources) may be called only when IsSignaled; otherwise it raises a usage
fault at the call site instead of returning a default value. -/
def ChildProcessStatus.GetTermSignal (s : ChildProcessStatus) :
    Except ChildProcessStatusException Int :=
  if s.IsSignaled then Except.ok s.term_signal_
  else Except.error ⟨"GetTermSignal called on non-signaled process status"⟩

/-! ### The pid-keyed registry (child process map)

The map itself (child_process_map.hpp, not among the provided sources) is
modelled from the spec as an association list keyed by pid whose entry
holds the single-fulfillment completion slot for the child status. -/

/-- Registry entry value: the completion slot for the child status.
none models the still-pending promise. -/
structure ChildProcessMapValue where
  status_promise : Option ChildProcessStatus
deriving DecidableEq, Repr

/-- The registry: pid to pending-completion association. -/
abbrev ChildProcessMap := List (Pid × ChildProcessMapValue)

/-- Lookup of a registry entry by pid. -/
def ChildProcessMapFind : ChildProcessMap → Pid → Option ChildProcessMapValue
  | [], _ => none
  | p :: rest, pid => if p.1 = pid then some p.2 else ChildProcessMapFind rest pid

/-- Modelled from the spec: ChildProcessMapSet (definition not among the
provided sources) is an atomic insert-if-absent, returning the map and
whether insertion took place; it never overwrites an existing entry. -/
def ChildProcessMapSet (m : ChildProcessMap) (pid : Pid)
    (v : ChildProcessMapValue) : ChildProcessMap × Bool :=
  match ChildProcessMapFind m pid with
  | some _ => (m, false)
  | none => (m ++ [(pid, v)], true)

theorem childProcessMapFind_append_self (m : ChildProcessMap) (pid : Pid)
    (v : ChildProcessMapValue) (h : ChildProcessMapFind m pid = none) :
    ChildProcessMapFind (m ++ [(pid, v)]) pid = some v := by
  induction m with
  | nil => simp [ChildProcessMapFind]
  | cons p rest ih =>
    by_cases hp : p.1 = pid
    · simp [ChildProcessMapFind, hp] at h
    · simp only [ChildProcessMapFind, hp, if_false] at h ⊢
      exact ih h

theorem childProcessMapFind_none_not_mem (m : ChildProcessMap) (pid : Pid)
    (h : ChildProcessMapFind m pid = none) : pid ∉ m.map Prod.fst := by
  induction m with
  | nil => simp
  | cons p rest ih =>
    by_cases hp : p.1 = pid
    · simp [ChildProcessMapFind, hp] at h
    · simp only [ChildProcessMapFind, hp, if_false] at h
      simp only [List.map_cons, List.mem_cons]
      push_neg
      exact ⟨fun he => hp he.symm, ih h⟩

/-! ### The spawn request shapes

The three ProcessStarter::Exec overloads differ only in how the child
environment is constructed; all converge on one internal spawn sequence.
GetCurrentEnvironmentVariables is abstracted as the curEnv argument. -/

/-- The converged spawn request handed to the fork-and-register sequence. -/
structure SpawnRequest where
  command : String
  args : List String
  env : EnvironmentVariables
  stdout_file : Option String
  stderr_file : Option String
deriving DecidableEq, Repr

/-- Exec overload with a full environment: the environment is used verbatim. -/
def ProcessStarter.ExecRequestFull (command : String) (args : List String)
    (env : EnvironmentVariables) (stdout_file stderr_file : Option String) :
    SpawnRequest :=
  { command := command, args := args, env := env,
    stdout_file := stdout_file, stderr_file := stderr_file }

/-- Exec overload with an environment update: the current environment is
overlaid with the update and the full-environment overload is invoked. -/
def ProcessStarter.ExecRequestUpdate (curEnv : EnvironmentVariables)
    (command : String) (args : List String) (upd : EnvironmentVariables)
    (stdout_file stderr_file : Option String) : SpawnRequest :=
  ProcessStarter.ExecRequestFull command args (updateWith curEnv upd)
    stdout_file stderr_file

/-- Exec overload inheriting the current environment: invokes the update
overload with an empty update. -/
def ProcessStarter.ExecRequestInherited (curEnv : EnvironmentVariables)
    (command : String) (args : List String)
    (stdout_file stderr_file : Option String) : SpawnRequest :=
  ProcessStarter.ExecRequestUpdate curEnv command args []
    stdout_file stderr_file

/-! ### Child branch: DoExecve -/

/-- State of one stdio stream in the child after redirection. -/
inductive StreamState
  | inherited
  | appendFile (path : String)
deriving DecidableEq, Repr

/-- State of the stdout and stderr streams of the child. -/
structure StdioState where
  outStream : StreamState
  errStream : StreamState
deriving DecidableEq, Repr

/-- The freopen calls at the head of DoExecve: a given path is opened in
append mode and bound to the stream, an omitted path leaves the stream
inherited from the parent. -/
def redirectStreams (stdout_file stderr_file : Option String) : StdioState :=
  { outStream := match stdout_file with
      | some p => StreamState.appendFile p
      | none => StreamState.inherited
  , errStream := match stderr_file with
      | some p => StreamState.appendFile p
      | none => StreamState.inherited }

/-- The argv array marshalled by DoExecve: the command followed by the
arguments (the terminating null pointer is implicit in the list end). -/
def marshalArgv (command : String) (args : List String) : List String :=
  command :: args

/-- The envp array marshalled by DoExecve: one name=value string per
environment entry. -/
def marshalEnvp (env : EnvironmentVariables) : List String :=
  env.map (fun p => p.1 ++ "=" ++ p.2)

/-- Outcome of the execve system call as seen by the child. -/
inductive ExecveOutcome
  | replaced
  | failed (err : Nat)
deriving DecidableEq, Repr

/-- Terminal outcome of the child branch: either the process image was
replaced, or the child terminated without returning. -/
inductive ChildOutcome
  | imageReplaced (path : String) (argv envp : List String) (stdio : StdioState)
  | terminated
deriving DecidableEq, Repr

/-- The child branch after fork: redirect stdio, marshal argv and envp,
call execve.  On execve failure the child terminates unconditionally
(modelled from the spec: CheckSyscall, not among the provided sources,
raises on failure and the child has no handler, so the child aborts;
the explicit abort call covers an execve that returns success). -/
def DoExecve (command : String) (args : List String)
    (env : EnvironmentVariables) (stdout_file stderr_file : Option String)
    (execveResult : ExecveOutcome) : ChildOutcome :=
  let stdio := redirectStreams stdout_file stderr_file
  match execveResult with
  | ExecveOutcome.replaced =>
      ChildOutcome.imageReplaced command (marshalArgv command args)
        (marshalEnvp env) stdio
  | ExecveOutcome.failed _ => ChildOutcome.terminated

/-! ### Parent branch: the fork-and-register unit of work

ProcessStarter::Exec submits a closure to the designated ev thread.  The
closure logs, calls fork, and in the parent branch registers the pid and
resolves the outer promise.  The fork outcome the OS hands the closure is
made an explicit argument; the effects of one closure run are collected
in a record: the updated registry, the signals sent, the log lines, and
the resolution of the outer promise (modelled from the spec: the
promise/future primitive and RunInEvLoopAsync are not among the provided
sources; a failure inside the unit of work resolves the outer future with
the error). -/

/-- Caller-facing handle bound to one spawned pid. -/
structure ChildProcess where
  pid : Pid
deriving DecidableEq, Repr

/-- Outcome of fork as seen by the parent: failure, or a child pid. -/
inductive ForkResult
  | failure (err : Nat)
  | parent (pid : Pid)
deriving DecidableEq, Repr

/-- Effects of one run of the fork-and-register unit of work. -/
structure ExecEvEffects where
  registry : ChildProcessMap
  signals : List (Pid × Nat)
  logs : List String
  outcome : Except String ChildProcess
deriving Repr

/-- The debug line logged before fork. -/
def execDebugLine (req : SpawnRequest) : String :=
  "do fork() + execve(), command=" ++ req.command

/-- The collision error message built in the parent branch. -/
def collisionMessage (pid : Pid) : String :=
  "process with pid=" ++ toString pid ++ " already exists in child_process_map"

/-- Modelled from the spec: the OS error carried by the failed spawn future
when fork fails (CheckSyscall, not among the provided sources, raises a
system error naming the call). -/
def forkFailureMessage (err : Nat) : String :=
  "Error while fork, code = " ++ toString err

/-- One run of the fork-and-register unit of work on the designated
thread, in the parent process.  On successful registration the outer
promise is fulfilled with a handle; on a registration collision the new
pid is killed with SIGKILL, the collision is logged, and the outer
promise is failed; on fork failure the outer promise is failed with the
OS error. -/
def execOnEvThread (reg : ChildProcessMap) (req : SpawnRequest)
    (fork : ForkResult) : ExecEvEffects :=
  match fork with
  | ForkResult.failure err =>
      { registry := reg
      , signals := []
      , logs := [execDebugLine req]
      , outcome := Except.error (forkFailureMessage err) }
  | ForkResult.parent pid =>
      let res := ChildProcessMapSet reg pid { status_promise := none }
      if res.2 then
        { registry := res.1
        , signals := []
        , logs := [execDebugLine req,
                   "Started child process with pid=" ++ toString pid]
        , outcome := Except.ok { pid := pid } }
      else
        { registry := res.1
        , signals := [(pid, SIGKILL)]
        , logs := [execDebugLine req,
                   "Started child process with pid=" ++ toString pid,
                   collisionMessage pid ++ ", send SIGKILL"]
        , outcome := Except.error (collisionMessage pid) }

/-! ### The designated ev thread as a serializing executor

Modelled from the spec: ThreadControl and the ev loop are not among the
provided sources.  Spawn requests funnel through the one designated
thread, which drains submitted work items sequentially; each item is a
fork-and-register sequence with an OS-chosen fork outcome. -/

/-- A submitted unit of work: the spawn request together with the fork
outcome the OS will hand it. -/
structure SpawnWork where
  req : SpawnRequest
  fork : ForkResult
deriving DecidableEq, Repr

/-- Observable events of the designated thread. -/
inductive EvEvent
  | forkCalled (r : ForkResult)
  | registerAttempt (pid : Pid) (inserted : Bool)
  | promiseResolved (outcome : Except String ChildProcess)
deriving Repr

/-- The events of one work item run against a given registry state. -/
def itemEvents (reg : ChildProcessMap) (w : SpawnWork) : List EvEvent :=
  match w.fork with
  | ForkResult.failure err =>
      [EvEvent.forkCalled (ForkResult.failure err),
       EvEvent.promiseResolved (execOnEvThread reg w.req w.fork).outcome]
  | ForkResult.parent pid =>
      [EvEvent.forkCalled (ForkResult.parent pid),
       EvEvent.registerAttempt pid
         (ChildProcessMapSet reg pid { status_promise := none }).2,
       EvEvent.promiseResolved (execOnEvThread reg w.req w.fork).outcome]

/-- The designated thread drains the submitted work items in order,
threading the registry state; each event is tagged with the index of the
work item it belongs to. -/
def evLoopTraceFrom (i : Nat) (reg : ChildProcessMap) :
    List SpawnWork → List (Nat × EvEvent)
  | [] => []
  | w :: ws =>
      (itemEvents reg w).map (fun e => (i, e)) ++
        evLoopTraceFrom (i + 1) (execOnEvThread reg w.req w.fork).registry ws

/-- The full tagged event trace of the designated thread. -/
def evLoopTrace (reg : ChildProcessMap) (ws : List SpawnWork) :
    List (Nat × EvEvent) :=
  evLoopTraceFrom 0 reg ws

theorem evLoopTraceFrom_tag_ge (i : Nat) (reg : ChildProcessMap)
    (ws : List SpawnWork) :
    ∀ p ∈ evLoopTraceFrom i reg ws, i ≤ p.1 := by
  induction ws generalizing i reg with
  | nil => intro p hp; simp [evLoopTraceFrom] at hp
  | cons w rest ih =>
    intro p hp
    simp only [evLoopTraceFrom, List.mem_append, List.mem_map] at hp
    rcases hp with ⟨e, _, he⟩ | hp
    · rw [← he]
    · exact Nat.le_of_succ_le (ih (i + 1) _ p hp)

/-! ### Claim theorems -/

/-- C10: the environment-inheriting Exec overload is the update overload
with an empty update, which is the identity overlay, so for every
command, arguments and redirection arguments it produces the same spawn
request as the full-environment overload applied to the current process
environment. -/
theorem exec_inherited_eq_full_env (curEnv : EnvironmentVariables)
    (command : String) (args : List String)
    (stdout_file stderr_file : Option String) :
    ProcessStarter.ExecRequestInherited curEnv command args
        stdout_file stderr_file =
      ProcessStarter.ExecRequestFull command args curEnv
        stdout_file stderr_file := rfl

/-- C3: in the child branch after fork, if execve fails the child
terminates unconditionally; the execve path has no error return. -/
theorem do_execve_failure_terminates (command : String) (args : List String)
    (env : EnvironmentVariables) (stdout_file stderr_file : Option String)
    (err : Nat) :
    DoExecve command args env stdout_file stderr_file
        (ExecveOutcome.failed err) = ChildOutcome.terminated := rfl

/-- C8: when stdout_file (respectively stderr_file) is given, the child
binds the corresponding stream to that path in append mode before image
replacement; when it is omitted the stream stays inherited from the
parent. -/
theorem do_execve_stdio_redirection (command : String) (args : List String)
    (env : EnvironmentVariables) (stdout_file stderr_file : Option String)
    (p q : String) :
    DoExecve command args env stdout_file stderr_file
        ExecveOutcome.replaced =
      ChildOutcome.imageReplaced command (marshalArgv command args)
        (marshalEnvp env) (redirectStreams stdout_file stderr_file) ∧
    (redirectStreams (some p) stderr_file).outStream =
      StreamState.appendFile p ∧
    (redirectStreams none stderr_file).outStream = StreamState.inherited ∧
    (redirectStreams stdout_file (some q)).errStream =
      StreamState.appendFile q ∧
    (redirectStreams stdout_file none).errStream = StreamState.inherited :=
  ⟨rfl, rfl, rfl, rfl, rfl⟩

/-- C4: when fork itself fails, no registration happens, no signal is
sent, the registry is unchanged, and the outer future is fulfilled with
the OS error rather than left pending. -/
theorem exec_fork_failure_fails_future (reg : ChildProcessMap)
    (req : SpawnRequest) (err : Nat) :
    (execOnEvThread reg req (ForkResult.failure err)).outcome =
        Except.error (forkFailureMessage err) ∧
      (execOnEvThread reg req (ForkResult.failure err)).registry = reg ∧
      (execOnEvThread reg req (ForkResult.failure err)).signals = [] :=
  ⟨rfl, rfl, rfl⟩

/-- C7: the environment-update Exec overload spawns the child with the
inherited environment overlaid by the update: every key bound in the
update observes the supplied value, and every key absent from the update
retains its inherited value. -/
theorem exec_env_update_semantics (curEnv : EnvironmentVariables)
    (command : String) (args : List String) (upd : EnvironmentVariables)
    (stdout_file stderr_file : Option String) (k : String)
    (hnd : (upd.map Prod.fst).Nodup) :
    (∀ v, getVar upd k = some v →
      getVar (ProcessStarter.ExecRequestUpdate curEnv command args upd
          stdout_file stderr_file).env k = some v) ∧
    (getVar upd k = none →
      getVar (ProcessStarter.ExecRequestUpdate curEnv command args upd
          stdout_file stderr_file).env k = getVar curEnv k) :=
  getVar_updateWith curEnv upd k hnd

/-- C7 witness: a key present in both the inherited environment and the
update observes the updated value, and a key only in the inherited
environment retains its value. -/
theorem exec_env_update_semantics_witness :
    getVar (ProcessStarter.ExecRequestUpdate
        [("PATH", "/usr/bin"), ("HOME", "/root")] "/bin/echo" []
        [("PATH", "/opt/bin")] none none).env "PATH" = some "/opt/bin" ∧
    getVar (ProcessStarter.ExecRequestUpdate
        [("PATH", "/usr/bin"), ("HOME", "/root")] "/bin/echo" []
        [("PATH", "/opt/bin")] none none).env "HOME" = some "/root" := by
  constructor
  · exact (exec_env_update_semantics [("PATH", "/usr/bin"), ("HOME", "/root")]
      "/bin/echo" [] [("PATH", "/opt/bin")] none none "PATH"
      (by decide)).1 "/opt/bin" (by decide)
  · have h := (exec_env_update_semantics [("PATH", "/usr/bin"), ("HOME", "/root")]
      "/bin/echo" [] [("PATH", "/opt/bin")] none none "HOME"
      (by decide)).2 (by decide)
    rw [h]
    decide

/-- C9: calling GetExitCode when IsExited is false, or GetTermSignal when
IsSignaled is false, raises a usage fault at the call site and never
returns a default value. -/
theorem status_wrong_accessor_faults (s : ChildProcessStatus) :
    (s.IsExited = false →
      s.GetExitCode =
        Except.error ⟨"GetExitCode called on non-exited process status"⟩) ∧
    (s.IsSignaled = false →
      s.GetTermSignal =
        Except.error ⟨"GetTermSignal called on non-signaled process status"⟩) := by
  constructor
  · intro h
    simp [ChildProcessStatus.GetExitCode, h]
  · intro h
    simp [ChildProcessStatus.GetTermSignal, h]

/-- C9 witness: the wrong accessor faults on a signaled status and on an
exited status. -/
theorem status_wrong_accessor_faults_witness :
    ChildProcessStatus.GetExitCode
        { execution_time_ := 0, exit_reason_ := ExitReason.kSignaled,
          exit_code_ := 0, term_signal_ := 9 } =
      Except.error ⟨"GetExitCode called on non-exited process status"⟩ ∧
    ChildProcessStatus.GetTermSignal
        { execution_time_ := 0, exit_reason_ := ExitReason.kExited,
          exit_code_ := 0, term_signal_ := 0 } =
      Except.error ⟨"GetTermSignal called on non-signaled process status"⟩ :=
  ⟨(status_wrong_accessor_faults
      { execution_time_ := 0, exit_reason_ := ExitReason.kSignaled,
        exit_code_ := 0, term_signal_ := 9 }).1 (by decide),
   (status_wrong_accessor_faults
      { execution_time_ := 0, exit_reason_ := ExitReason.kExited,
        exit_code_ := 0, term_signal_ := 0 }).2 (by decide)⟩

/-- C1: when the parent-branch registry insertion fails because an entry
for the new pid already exists, the unit of work sends an unconditional
SIGKILL to the new pid, logs the collision, fails the outer future with a
descriptive error, and leaves the registry (hence the pre-existing
entry) unchanged. -/
theorem exec_collision_kills_and_fails (reg : ChildProcessMap)
    (req : SpawnRequest) (pid : Pid)
    (h : (ChildProcessMapFind reg pid).isSome = true) :
    (execOnEvThread reg req (ForkResult.parent pid)).signals =
        [(pid, SIGKILL)] ∧
      (execOnEvThread reg req (ForkResult.parent pid)).outcome =
        Except.error (collisionMessage pid) ∧
      (execOnEvThread reg req (ForkResult.parent pid)).registry = reg ∧
      (collisionMessage pid ++ ", send SIGKILL") ∈
        (execOnEvThread reg req (ForkResult.parent pid)).logs := by
  obtain ⟨v, hv⟩ := Option.isSome_iff_exists.mp h
  refine ⟨?_, ?_, ?_, ?_⟩ <;>
    simp [execOnEvThread, ChildProcessMapSet, hv]

/-- C1 witness: a collision on pid 5 in a one-entry registry. -/
theorem exec_collision_kills_and_fails_witness :
    (execOnEvThread [(5, { status_promise := none })]
        { command := "/bin/echo", args := [], env := [],
          stdout_file := none, stderr_file := none }
        (ForkResult.parent 5)).signals = [(5, SIGKILL)] ∧
      (execOnEvThread [(5, { status_promise := none })]
          { command := "/bin/echo", args := [], env := [],
            stdout_file := none, stderr_file := none }
          (ForkResult.parent 5)).outcome =
        Except.error (collisionMessage 5) ∧
      (execOnEvThread [(5, { status_promise := none })]
          { command := "/bin/echo", args := [], env := [],
            stdout_file := none, stderr_file := none }
          (ForkResult.parent 5)).registry =
        [(5, { status_promise := none })] ∧
      (collisionMessage 5 ++ ", send SIGKILL") ∈
        (execOnEvThread [(5, { status_promise := none })]
            { command := "/bin/echo", args := [], env := [],
              stdout_file := none, stderr_file := none }
            (ForkResult.parent 5)).logs :=
  exec_collision_kills_and_fails [(5, { status_promise := none })]
    { command := "/bin/echo", args := [], env := [],
      stdout_file := none, stderr_file := none } 5 (by decide)

/-- C2: registration is an atomic insert-if-absent: it reports failure
and leaves the map unchanged when an entry for the pid is present, it
appends exactly one new entry when absent, and it preserves key
uniqueness, so at most one entry per pid ever exists. -/
theorem child_process_map_set_contract (m : ChildProcessMap) (pid : Pid)
    (v : ChildProcessMapValue) :
    ((ChildProcessMapFind m pid).isSome = true →
      ChildProcessMapSet m pid v = (m, false)) ∧
    (ChildProcessMapFind m pid = none →
      ChildProcessMapSet m pid v = (m ++ [(pid, v)], true)) ∧
    ((m.map Prod.fst).Nodup →
      (((ChildProcessMapSet m pid v).1.map Prod.fst)).Nodup) := by
  refine ⟨?_, ?_, ?_⟩
  · intro h
    obtain ⟨w, hw⟩ := Option.isSome_iff_exists.mp h
    simp [ChildProcessMapSet, hw]
  · intro h
    simp [ChildProcessMapSet, h]
  · intro hnd
    cases hfind : ChildProcessMapFind m pid with
    | some w => simpa [ChildProcessMapSet, hfind] using hnd
    | none =>
      have hnm := childProcessMapFind_none_not_mem m pid hfind
      simp [ChildProcessMapSet, hfind, List.nodup_append, hnd, hnm]

/-- C2 witness: insertion fails without overwriting on a present pid and
inserts exactly one entry on an absent pid. -/
theorem child_process_map_set_contract_witness :
    ChildProcessMapSet [(3, { status_promise := none })] 3
        { status_promise := none } =
      ([(3, { status_promise := none })], false) ∧
    ChildProcessMapSet [(3, { status_promise := none })] 4
        { status_promise := none } =
      ([(3, { status_promise := none }), (4, { status_promise := none })],
        true) :=
  ⟨(child_process_map_set_contract [(3, { status_promise := none })] 3
      { status_promise := none }).1 (by decide),
   (child_process_map_set_contract [(3, { status_promise := none })] 4
      { status_promise := none }).2.1 (by decide)⟩

/-- C6: each of the three Exec request shapes resolves the outer future
with a ChildProcess handle as soon as the fork-and-register unit of work
succeeds — while the status slot of the new pid is still pending, so the
caller is not suspended until child termination — and resolves it with a
spawn error when fork fails. -/
theorem exec_future_resolution (reg : ChildProcessMap)
    (curEnv : EnvironmentVariables) (command : String)
    (args : List String) (env upd : EnvironmentVariables)
    (stdout_file stderr_file : Option String) (pid : Pid)
    (h : ChildProcessMapFind reg pid = none) :
    ∀ req ∈ [ProcessStarter.ExecRequestFull command args env
               stdout_file stderr_file,
             ProcessStarter.ExecRequestUpdate curEnv command args upd
               stdout_file stderr_file,
             ProcessStarter.ExecRequestInherited curEnv command args
               stdout_file stderr_file],
      (execOnEvThread reg req (ForkResult.parent pid)).outcome =
          Except.ok { pid := pid } ∧
        ChildProcessMapFind
            (execOnEvThread reg req (ForkResult.parent pid)).registry pid =
          some { status_promise := none } ∧
        ∀ ec, (execOnEvThread reg req (ForkResult.failure ec)).outcome =
          Except.error (forkFailureMessage ec) := by
  intro req _
  have hset : ChildProcessMapSet reg pid { status_promise := none } =
      (reg ++ [(pid, { status_promise := none })], true) := by
    simp [ChildProcessMapSet, h]
  refine ⟨?_, ?_, fun ec => rfl⟩
  · simp [execOnEvThread, hset]
  · simp only [execOnEvThread, hset]
    exact childProcessMapFind_append_self reg pid
      { status_promise := none } h

/-- C6 witness: a successful spawn of pid 7 from an empty registry with
the full-environment request shape resolves the future with the handle
while the status slot is still pending, and a fork failure resolves it
with the OS error. -/
theorem exec_future_resolution_witness :
    (execOnEvThread []
          (ProcessStarter.ExecRequestFull "/bin/echo" ["hello"] [] none none)
          (ForkResult.parent 7)).outcome = Except.ok { pid := 7 } ∧
      ChildProcessMapFind
          (execOnEvThread []
              (ProcessStarter.ExecRequestFull "/bin/echo" ["hello"] []
                none none)
              (ForkResult.parent 7)).registry 7 =
        some { status_promise := none } ∧
      (execOnEvThread []
          (ProcessStarter.ExecRequestFull "/bin/echo" ["hello"] [] none none)
          (ForkResult.failure 12)).outcome =
        Except.error (forkFailureMessage 12) := by
  have h := exec_future_resolution [] [] "/bin/echo" ["hello"] [] [] none
    none 7 (by decide)
    (ProcessStarter.ExecRequestFull "/bin/echo" ["hello"] [] none none)
    (List.mem_cons_self _ _)
  exact ⟨h.1, h.2.1, h.2.2 12⟩

/-- Recognizes the fork event of the designated thread. -/
def isForkCall : EvEvent → Bool
  | EvEvent.forkCalled _ => true
  | _ => false

theorem itemEvents_one_fork (reg : ChildProcessMap) (w : SpawnWork) :
    ((itemEvents reg w).filter (fun e => isForkCall e)).length = 1 := by
  cases hf : w.fork <;> simp [itemEvents, hf, isForkCall]

theorem evLoopTraceFrom_fork_count (i : Nat) (reg : ChildProcessMap)
    (ws : List SpawnWork) :
    ((evLoopTraceFrom i reg ws).filter
        (fun p => isForkCall p.2)).length = ws.length := by
  induction ws generalizing i reg with
  | nil => simp [evLoopTraceFrom]
  | cons w rest ih =>
    have hone := itemEvents_one_fork reg w
    simp only [evLoopTraceFrom, List.filter_append, List.length_append,
      List.length_cons, ih]
    have hmap : (((itemEvents reg w).map (fun e => (i, e))).filter
        (fun p => isForkCall p.2)).length =
        ((itemEvents reg w).filter (fun e => isForkCall e)).length := by
      induction itemEvents reg w with
      | nil => rfl
      | cons e es ihe =>
        by_cases he : isForkCall e = true <;>
          simp [List.filter, he, ihe]
    omega

theorem evLoopTraceFrom_pairwise (i : Nat) (reg : ChildProcessMap)
    (ws : List SpawnWork) :
    List.Pairwise (fun a b => a.1 ≤ b.1) (evLoopTraceFrom i reg ws) := by
  induction ws generalizing i reg with
  | nil => simp [evLoopTraceFrom]
  | cons w rest ih =>
    rw [evLoopTraceFrom, List.pairwise_append]
    refine ⟨?_, ih (i + 1) _, ?_⟩
    · rw [List.pairwise_map]
      exact List.Pairwise.imp (fun _ => Nat.le_refl i)
        (List.pairwise_of_forall_mem_list (fun _ _ _ _ => trivial))
    · intro a ha b hb
      obtain ⟨e, _, hae⟩ := List.mem_map.mp ha
      have hb2 := evLoopTraceFrom_tag_ge (i + 1) _ rest b hb
      rw [← hae]
      exact Nat.le_of_succ_le hb2

/-- C5: the fork-and-register sequences of all submitted Exec calls run
serialized on the single designated ev thread: the tagged event trace
contains exactly one fork call per submitted work item, and the item tags
are monotone along the trace, so the events of distinct work items never
interleave. -/
theorem ev_loop_serializes_exec (reg : ChildProcessMap)
    (ws : List SpawnWork) :
    ((evLoopTrace reg ws).filter
        (fun p => isForkCall p.2)).length = ws.length ∧
      List.Pairwise (fun a b => a.1 ≤ b.1) (evLoopTrace reg ws) :=
  ⟨evLoopTraceFrom_fork_count 0 reg ws,
   evLoopTraceFrom_pairwise 0 reg ws⟩

end Subprocess
end Userver
